import Mathlib

/-!
Verification of the settlement core of the PT-V2 paper-trading backend.

The embedding models the state touched by the Settlement Engine: the
in-memory/DB ledger (users, stocks, orders, positions, trades) as lists of
records, the storage operations of `server/storage.ts` as pure state
transformers, and the route-level logic of `registerRoutes` (order placement,
the execution condition, and `executeOrder`) as functions over that state.

Monetary values (stored as 2-decimal strings via `toFixed(2)` in the source)
are modelled as rationals; `round2` models `Number.prototype.toFixed(2)`
(round half up to two decimals).  Timestamps are modelled by a logical clock
`now` carried in the state (`new Date()` reads it).
-/

namespace PTV2

/-- Models JS `x.toFixed(2)` followed by `parseFloat`: rounding to two
decimal places (half up). -/
def round2 (x : ℚ) : ℚ := (⌊x * 100 + 1/2⌋ : ℚ) / 100

/-- Row of the `users` table (shared/schema.ts). -/
structure User where
  id : Nat
  username : String
  password : String
  balance : ℚ
deriving DecidableEq

/-- Row of the `stocks` table (shared/schema.ts). -/
structure Stock where
  id : Nat
  symbol : String
  exchange : String
  name : String
  currentPrice : ℚ
  previousClose : ℚ
  dayHigh : ℚ
  dayLow : ℚ
  dayOpen : ℚ
  volume : Nat
  lastUpdated : Nat
deriving DecidableEq

/-- Row of the `orders` table (shared/schema.ts).  `orderType` and `status`
are text columns in the source, compared as strings ("BUY"/"SELL",
"PENDING"/"EXECUTED"/"CANCELLED"), so they are modelled as `String`. -/
structure Order where
  id : Nat
  userId : Nat
  symbol : String
  exchange : String
  orderType : String
  quantity : Int
  limitPrice : ℚ
  takeProfitType : Option String
  takeProfitValue : Option ℚ
  stopLossType : Option String
  stopLossValue : Option ℚ
  status : String
  executedPrice : Option ℚ
  executedAt : Option Nat
  createdAt : Nat
deriving DecidableEq

/-- Row of the `positions` table (shared/schema.ts). -/
structure Position where
  id : Nat
  userId : Nat
  symbol : String
  exchange : String
  quantity : Int
  averagePrice : ℚ
  currentValue : ℚ
  unrealizedPnL : ℚ
  createdAt : Nat
  updatedAt : Nat
deriving DecidableEq

/-- Row of the `trades` table (shared/schema.ts). -/
structure Trade where
  id : Nat
  userId : Nat
  orderId : Nat
  symbol : String
  exchange : String
  tradeType : String
  quantity : Int
  price : ℚ
  totalValue : ℚ
  executedAt : Nat
deriving DecidableEq

/-- The body accepted by `POST /api/orders` after parsing: the columns of
`orders` minus id/userId/status/executedPrice/executedAt/createdAt
(`insertOrderSchema` in shared/schema.ts). -/
structure InsertOrder where
  symbol : String
  exchange : String
  orderType : String
  quantity : Int
  limitPrice : ℚ
  takeProfitType : Option String
  takeProfitValue : Option ℚ
  stopLossType : Option String
  stopLossValue : Option ℚ
deriving DecidableEq

/-- The ledger state behind `IStorage` (server/storage.ts): the five record
collections plus the id counters of `MemStorage` and a logical clock. -/
structure StoreState where
  users : List User
  stocks : List Stock
  orders : List Order
  positions : List Position
  trades : List Trade
  currentOrderId : Nat
  currentPositionId : Nat
  currentTradeId : Nat
  now : Nat
deriving DecidableEq

/-- `getUser(id)` (server/storage.ts). -/
def getUser (st : StoreState) (id : Nat) : Option User :=
  st.users.find? fun u => u.id == id

/-- `getStock(symbol, exchange)` (server/storage.ts): lookup by the
(symbol, exchange) key. -/
def getStock (st : StoreState) (symbol exchange : String) : Option Stock :=
  st.stocks.find? fun s => s.symbol == symbol && s.exchange == exchange

/-- `getOrder(id)` (server/storage.ts). -/
def getOrder (st : StoreState) (id : Nat) : Option Order :=
  st.orders.find? fun o => o.id == id

/-- `getPosition(userId, symbol, exchange)` (server/storage.ts). -/
def getPosition (st : StoreState) (userId : Nat) (symbol exchange : String) :
    Option Position :=
  st.positions.find? fun p =>
    p.userId == userId && p.symbol == symbol && p.exchange == exchange

/-- `updateUserBalance(userId, balance)` (server/storage.ts): stores
`balance.toFixed(2)`; no-op when the user does not exist. -/
def updateUserBalance (st : StoreState) (userId : Nat) (balance : ℚ) :
    StoreState :=
  { st with users := st.users.map fun u =>
      if u.id == userId then { u with balance := round2 balance } else u }

/-- `createOrder(order & userId)` (server/storage.ts): fresh id, status
PENDING, executed price/time unset, creation time stamped. -/
def createOrder (st : StoreState) (order : InsertOrder) (userId : Nat) :
    Order × StoreState :=
  let newOrder : Order :=
    { id := st.currentOrderId
      userId := userId
      symbol := order.symbol
      exchange := order.exchange
      orderType := order.orderType
      quantity := order.quantity
      limitPrice := order.limitPrice
      takeProfitType := order.takeProfitType
      takeProfitValue := order.takeProfitValue
      stopLossType := order.stopLossType
      stopLossValue := order.stopLossValue
      status := "PENDING"
      executedPrice := none
      executedAt := none
      createdAt := st.now }
  (newOrder, { st with orders := newOrder :: st.orders
                       currentOrderId := st.currentOrderId + 1 })

/-- `updateOrderStatus(orderId, status, executedPrice?)` (server/storage.ts):
always sets the status; sets executed price (as `toFixed(2)`) and time only
when an execution price is supplied. -/
def updateOrderStatus (st : StoreState) (orderId : Nat) (status : String)
    (executedPrice : Option ℚ) : StoreState :=
  { st with orders := st.orders.map fun o =>
      if o.id == orderId then
        match executedPrice with
        | some p => { o with status := status, executedPrice := some (round2 p),
                             executedAt := some st.now }
        | none => { o with status := status }
      else o }

/-- `cancelOrder(orderId)` (server/storage.ts): sets status to CANCELLED for
the order with that id whenever it exists — with no check of the current
status. -/
def cancelOrder (st : StoreState) (orderId : Nat) : StoreState :=
  { st with orders := st.orders.map fun o =>
      if o.id == orderId then { o with status := "CANCELLED" } else o }

/-- `createPosition(position & userId)` (server/storage.ts): fresh id,
`currentValue = (quantity * parseFloat(averagePrice)).toFixed(2)`,
zero unrealized PnL. -/
def createPosition (st : StoreState) (symbol exchange : String)
    (quantity : Int) (averagePrice : ℚ) (userId : Nat) :
    Position × StoreState :=
  let newPosition : Position :=
    { id := st.currentPositionId
      userId := userId
      symbol := symbol
      exchange := exchange
      quantity := quantity
      averagePrice := averagePrice
      currentValue := round2 ((quantity : ℚ) * averagePrice)
      unrealizedPnL := 0
      createdAt := st.now
      updatedAt := st.now }
  (newPosition, { st with positions := newPosition :: st.positions
                          currentPositionId := st.currentPositionId + 1 })

/-- `updatePosition(positionId, quantity, averagePrice)` (server/storage.ts):
stores `averagePrice.toFixed(2)` and `(quantity * averagePrice).toFixed(2)`. -/
def updatePosition (st : StoreState) (positionId : Nat) (quantity : Int)
    (averagePrice : ℚ) : StoreState :=
  { st with positions := st.positions.map fun p =>
      if p.id == positionId then
        { p with quantity := quantity
                 averagePrice := round2 averagePrice
                 currentValue := round2 ((quantity : ℚ) * averagePrice)
                 updatedAt := st.now }
      else p }

/-- `deletePosition(positionId)` (server/storage.ts). -/
def deletePosition (st : StoreState) (positionId : Nat) : StoreState :=
  { st with positions := st.positions.filter fun p => p.id != positionId }

/-- `createTrade(trade & userId)` (server/storage.ts): fresh id, execution
time stamped.  Price and total value arrive already formatted with
`toFixed(2)` at the single call site in `executeOrder`. -/
def createTrade (st : StoreState) (orderId : Nat)
    (symbol exchange tradeType : String) (quantity : Int)
    (price totalValue : ℚ) (userId : Nat) : Trade × StoreState :=
  let newTrade : Trade :=
    { id := st.currentTradeId
      userId := userId
      orderId := orderId
      symbol := symbol
      exchange := exchange
      tradeType := tradeType
      quantity := quantity
      price := price
      totalValue := totalValue
      executedAt := st.now }
  (newTrade, { st with trades := newTrade :: st.trades
                       currentTradeId := st.currentTradeId + 1 })

/-- The immediate execution check of `POST /api/orders` (routes, lines
170-175): BUY executes when `currentPrice <= limitPrice`, SELL when
`currentPrice >= limitPrice`, anything else never. -/
def shouldExecuteCreate (orderType : String) (currentPrice limitPrice : ℚ) :
    Bool :=
  if orderType = "BUY" ∧ currentPrice ≤ limitPrice then true
  else if orderType = "SELL" ∧ currentPrice ≥ limitPrice then true
  else false

/-- The execution check of the 5-second sweep over active orders (routes,
lines 434-439). -/
def shouldExecuteSweep (orderType : String) (currentPrice limitPrice : ℚ) :
    Bool :=
  if orderType = "BUY" ∧ currentPrice ≤ limitPrice then true
  else if orderType = "SELL" ∧ currentPrice ≥ limitPrice then true
  else false

/-- `executeOrder(orderId, executionPrice)` (routes, lines 191-262): the
settlement routine.  Returns the state unchanged when the order is missing or
not PENDING; otherwise marks the order EXECUTED, records the trade, updates
or creates/deletes the position, and adjusts the balance — BUY debits, SELL
credits only when an existing position was found. -/
def executeOrder (st : StoreState) (orderId : Nat) (executionPrice : ℚ) :
    StoreState :=
  match getOrder st orderId with
  | none => st
  | some order =>
    if order.status = "PENDING" then
      let st1 := updateOrderStatus st orderId "EXECUTED" (some executionPrice)
      let totalValue : ℚ := (order.quantity : ℚ) * executionPrice
      let st2 := (createTrade st1 order.id order.symbol order.exchange
        order.orderType order.quantity (round2 executionPrice)
        (round2 totalValue) order.userId).2
      let existingPosition :=
        getPosition st2 order.userId order.symbol order.exchange
      if order.orderType = "BUY" then
        let st3 :=
          match existingPosition with
          | some pos =>
            let newQuantity := pos.quantity + order.quantity
            let newAveragePrice :=
              ((pos.quantity : ℚ) * pos.averagePrice +
                (order.quantity : ℚ) * executionPrice) / (newQuantity : ℚ)
            updatePosition st2 pos.id newQuantity newAveragePrice
          | none =>
            (createPosition st2 order.symbol order.exchange order.quantity
              (round2 executionPrice) order.userId).2
        match getUser st3 order.userId with
        | some user => updateUserBalance st3 order.userId
            (user.balance - totalValue)
        | none => st3
      else if order.orderType = "SELL" then
        match existingPosition with
        | some pos =>
          let newQuantity := pos.quantity - order.quantity
          let st3 :=
            if newQuantity ≤ 0 then deletePosition st2 pos.id
            else updatePosition st2 pos.id newQuantity pos.averagePrice
          match getUser st3 order.userId with
          | some user => updateUserBalance st3 order.userId
              (user.balance + totalValue)
          | none => st3
        | none => st2
      else st2
    else st

/-- The runtime validation `insertOrderSchema.parse` performs on a request
body (shared/schema.ts, lines 81-88): `createInsertSchema(orders).omit(...)`
imposes only the column shapes and types — there is no `.positive()`,
`.min(...)` or enum refinement anywhere — so every well-typed `InsertOrder`
passes. -/
def insertOrderSchemaCheck (_order : InsertOrder) : Bool := true

/-- The `POST /api/orders` route body (routes, lines 152-188): parse, check
the instrument exists (400 "Stock not found" modelled as `none`), persist the
order, run the immediate execution check against the stock's last known
price, and reply with the order snapshot returned by `createOrder`. -/
def placeOrder (st : StoreState) (req : InsertOrder) :
    Option Order × StoreState :=
  if insertOrderSchemaCheck req then
    match getStock st req.symbol req.exchange with
    | none => (none, st)
    | some stock =>
      let p := createOrder st req 1
      if shouldExecuteCreate req.orderType stock.currentPrice req.limitPrice
      then (some p.1, executeOrder p.2 p.1.id stock.currentPrice)
      else (some p.1, p.2)
  else (none, st)

/-- One order's evaluation inside the sweep tick (routes, lines 428-443)
after its quote fetch succeeded with `currentPrice`. -/
def sweepCheckOrder (st : StoreState) (order : Order) (currentPrice : ℚ) :
    StoreState :=
  if shouldExecuteSweep order.orderType currentPrice order.limitPrice then
    executeOrder st order.id currentPrice
  else st

/-- The trades recorded for one order id. -/
def tradesFor (st : StoreState) (orderId : Nat) : List Trade :=
  st.trades.filter fun t => t.orderId == orderId

/-- The trade record written by a successful settlement of order `o` at
price `p` starting from state `st`. -/
def settledTrade (st : StoreState) (o : Order) (p : ℚ) : Trade :=
  { id := st.currentTradeId
    userId := o.userId
    orderId := o.id
    symbol := o.symbol
    exchange := o.exchange
    tradeType := o.orderType
    quantity := o.quantity
    price := round2 p
    totalValue := round2 ((o.quantity : ℚ) * p)
    executedAt := st.now }

/-! ### Generic list lemmas for keyed updates -/

theorem find?_map_upd {α : Type} (pred key : α → Bool) (f : α → α)
    (hpred : ∀ a, pred (f a) = pred a) (l : List α) (a : α)
    (h : l.find? pred = some a) (hkey : key a = true) :
    (l.map fun x => if key x then f x else x).find? pred = some (f a) := by
  induction l with
  | nil => simp at h
  | cons x xs ih =>
    by_cases hx : pred x = true
    · rw [List.find?_cons_of_pos _ hx] at h
      injection h with h'
      subst h'
      have hel : (if key x then f x else x) = f x := if_pos hkey
      rw [List.map_cons, hel, List.find?_cons_of_pos _ (by rw [hpred]; exact hx)]
    · have hx' : pred x = false := by simpa using hx
      rw [List.find?_cons_of_neg _ (by simp [hx'])] at h
      rw [List.map_cons,
        List.find?_cons_of_neg _
          (by by_cases hk : key x = true <;> simp [hk, hpred, hx'])]
      exact ih h

theorem find?_filter_none {α : Type} (pred keep : α → Bool) (l : List α)
    (h : ∀ x ∈ l, pred x = true → keep x = false) :
    (l.filter keep).find? pred = none := by
  rw [List.find?_eq_none]
  intro x hx hpx
  obtain ⟨hxl, hkx⟩ := List.mem_filter.mp hx
  have hf := h x hxl hpx
  rw [hf] at hkx
  exact absurd hkx (by simp)

theorem map_upd_of_none {α : Type} (key : α → Bool) (f : α → α)
    (l : List α) (h : l.find? key = none) :
    (l.map fun x => if key x then f x else x) = l := by
  induction l with
  | nil => rfl
  | cons x xs ih =>
    rw [List.find?_eq_none] at h
    rw [List.map_cons, if_neg (by simpa using h x (List.mem_cons_self x xs))]
    rw [ih (by rw [List.find?_eq_none]
               exact fun a ha => h a (List.mem_cons_of_mem x ha))]

/-! ### Facts about the storage operations -/

theorem getOrder_id {st : StoreState} {oid : Nat} {o : Order}
    (h : getOrder st oid = some o) : o.id = oid := by
  have h' : st.orders.find? (fun x => x.id == oid) = some o := h
  have hb := List.find?_some h'
  simpa using hb

theorem getUser_id {st : StoreState} {uid : Nat} {u : User}
    (h : getUser st uid = some u) : u.id = uid := by
  have h' : st.users.find? (fun x => x.id == uid) = some u := h
  have hb := List.find?_some h'
  simpa using hb

theorem getOrder_updateOrderStatus_price {st : StoreState} {oid : Nat}
    (s : String) (p : ℚ) {o : Order} (h : getOrder st oid = some o) :
    getOrder (updateOrderStatus st oid s (some p)) oid =
      some { o with status := s, executedPrice := some (round2 p),
                    executedAt := some st.now } := by
  have h' : st.orders.find? (fun x => x.id == oid) = some o := h
  have hkey := List.find?_some h'
  exact find?_map_upd (fun x => x.id == oid) (fun x => x.id == oid)
    (fun x => { x with status := s, executedPrice := some (round2 p),
                       executedAt := some st.now })
    (fun a => rfl) st.orders o h' hkey

theorem getOrder_cancelOrder {st : StoreState} {oid : Nat} {o : Order}
    (h : getOrder st oid = some o) :
    getOrder (cancelOrder st oid) oid = some { o with status := "CANCELLED" } := by
  have h' : st.orders.find? (fun x => x.id == oid) = some o := h
  have hkey := List.find?_some h'
  exact find?_map_upd (fun x => x.id == oid) (fun x => x.id == oid)
    (fun x => { x with status := "CANCELLED" })
    (fun a => rfl) st.orders o h' hkey

theorem cancelOrder_of_none {st : StoreState} {oid : Nat}
    (h : getOrder st oid = none) : cancelOrder st oid = st := by
  have h' : st.orders.find? (fun x => x.id == oid) = none := h
  show { st with orders := _ } = st
  rw [map_upd_of_none _ _ _ h']

theorem getUser_updateUserBalance {st : StoreState} {uid : Nat} {u : User}
    (b : ℚ) (h : getUser st uid = some u) :
    getUser (updateUserBalance st uid b) uid =
      some { u with balance := round2 b } := by
  have h' : st.users.find? (fun x => x.id == uid) = some u := h
  have hkey := List.find?_some h'
  exact find?_map_upd (fun x => x.id == uid) (fun x => x.id == uid)
    (fun x => { x with balance := round2 b })
    (fun a => rfl) st.users u h' hkey

theorem getPosition_updatePosition {st : StoreState} {u : Nat}
    {sy ex : String} {pos : Position} (q : Int) (a : ℚ)
    (h : getPosition st u sy ex = some pos) :
    getPosition (updatePosition st pos.id q a) u sy ex =
      some { pos with quantity := q, averagePrice := round2 a,
                      currentValue := round2 ((q : ℚ) * a),
                      updatedAt := st.now } := by
  have h' : st.positions.find?
      (fun x => x.userId == u && x.symbol == sy && x.exchange == ex) = some pos := h
  exact find?_map_upd _ (fun x => x.id == pos.id)
    (fun x => { x with quantity := q, averagePrice := round2 a,
                       currentValue := round2 ((q : ℚ) * a),
                       updatedAt := st.now })
    (fun a' => rfl) st.positions pos h' (by simp)

theorem getPosition_deletePosition {st : StoreState} {u : Nat}
    {sy ex : String} {pos : Position}
    (h : getPosition st u sy ex = some pos)
    (huniq : ∀ q ∈ st.positions,
      (q.userId == u && q.symbol == sy && q.exchange == ex) = true → q = pos) :
    getPosition (deletePosition st pos.id) u sy ex = none := by
  apply find?_filter_none
  intro x hx hpx
  have hxp := huniq x hx hpx
  subst hxp
  simp

/-! ### Frame lemmas: each operation touches only its own collection -/

theorem getUser_updateOrderStatus (st : StoreState) (oid : Nat) (s : String)
    (ep : Option ℚ) (uid : Nat) :
    getUser (updateOrderStatus st oid s ep) uid = getUser st uid := rfl

theorem getUser_createTrade (st : StoreState) (oid : Nat)
    (sy ex tt : String) (q : Int) (pr tv : ℚ) (uid' uid : Nat) :
    getUser (createTrade st oid sy ex tt q pr tv uid').2 uid = getUser st uid := rfl

theorem getUser_updatePosition (st : StoreState) (pid : Nat) (q : Int)
    (a : ℚ) (uid : Nat) :
    getUser (updatePosition st pid q a) uid = getUser st uid := rfl

theorem getUser_createPosition (st : StoreState) (sy ex : String) (q : Int)
    (a : ℚ) (uid' uid : Nat) :
    getUser (createPosition st sy ex q a uid').2 uid = getUser st uid := rfl

theorem getUser_deletePosition (st : StoreState) (pid : Nat) (uid : Nat) :
    getUser (deletePosition st pid) uid = getUser st uid := rfl

theorem getPosition_updateOrderStatus (st : StoreState) (oid : Nat)
    (s : String) (ep : Option ℚ) (u : Nat) (sy ex : String) :
    getPosition (updateOrderStatus st oid s ep) u sy ex =
      getPosition st u sy ex := rfl

theorem getPosition_createTrade (st : StoreState) (oid : Nat)
    (sy ex tt : String) (q : Int) (pr tv : ℚ) (uid : Nat) (u : Nat)
    (sy' ex' : String) :
    getPosition (createTrade st oid sy ex tt q pr tv uid).2 u sy' ex' =
      getPosition st u sy' ex' := rfl

theorem getPosition_updateUserBalance (st : StoreState) (uid : Nat) (b : ℚ)
    (u : Nat) (sy ex : String) :
    getPosition (updateUserBalance st uid b) u sy ex =
      getPosition st u sy ex := rfl

theorem getOrder_createTrade (st : StoreState) (oid : Nat)
    (sy ex tt : String) (q : Int) (pr tv : ℚ) (uid : Nat) (i : Nat) :
    getOrder (createTrade st oid sy ex tt q pr tv uid).2 i = getOrder st i := rfl

theorem getOrder_updatePosition (st : StoreState) (pid : Nat) (q : Int)
    (a : ℚ) (i : Nat) :
    getOrder (updatePosition st pid q a) i = getOrder st i := rfl

theorem getOrder_createPosition (st : StoreState) (sy ex : String) (q : Int)
    (a : ℚ) (uid : Nat) (i : Nat) :
    getOrder (createPosition st sy ex q a uid).2 i = getOrder st i := rfl

theorem getOrder_deletePosition (st : StoreState) (pid : Nat) (i : Nat) :
    getOrder (deletePosition st pid) i = getOrder st i := rfl

theorem getOrder_updateUserBalance (st : StoreState) (uid : Nat) (b : ℚ)
    (i : Nat) :
    getOrder (updateUserBalance st uid b) i = getOrder st i := rfl


/-! ### Branch characterizations of `executeOrder` -/

theorem executeOrder_noop (st : StoreState) (oid : Nat) (p : ℚ)
    (h : ∀ o, getOrder st oid = some o → ¬ o.status = "PENDING") :
    executeOrder st oid p = st := by
  unfold executeOrder
  split
  · rfl
  · rename_i o heq
    rw [if_neg (h o heq)]

theorem executeOrder_sell_noPos (st : StoreState) (oid : Nat) (p : ℚ)
    (o : Order) (h : getOrder st oid = some o) (hp : o.status = "PENDING")
    (hsell : o.orderType = "SELL")
    (hnopos : getPosition st o.userId o.symbol o.exchange = none) :
    executeOrder st oid p =
      (createTrade (updateOrderStatus st oid "EXECUTED" (some p)) o.id o.symbol
        o.exchange o.orderType o.quantity (round2 p)
        (round2 ((o.quantity : ℚ) * p)) o.userId).2 := by
  unfold executeOrder
  simp only [h, hp, hsell, reduceIte, String.reduceEq, getPosition_createTrade,
    getPosition_updateOrderStatus, hnopos]

theorem executeOrder_buy_pos (st : StoreState) (oid : Nat) (p : ℚ)
    (o : Order) (pos : Position) (u : User)
    (h : getOrder st oid = some o) (hp : o.status = "PENDING")
    (hbuy : o.orderType = "BUY")
    (hpos : getPosition st o.userId o.symbol o.exchange = some pos)
    (hu : getUser st o.userId = some u) :
    executeOrder st oid p =
      updateUserBalance
        (updatePosition
          (createTrade (updateOrderStatus st oid "EXECUTED" (some p)) o.id
            o.symbol o.exchange o.orderType o.quantity (round2 p)
            (round2 ((o.quantity : ℚ) * p)) o.userId).2
          pos.id (pos.quantity + o.quantity)
          (((pos.quantity : ℚ) * pos.averagePrice + (o.quantity : ℚ) * p) /
            (((pos.quantity + o.quantity : Int)) : ℚ)))
        o.userId (u.balance - (o.quantity : ℚ) * p) := by
  unfold executeOrder
  simp only [h, hp, hbuy, reduceIte, String.reduceEq, getPosition_createTrade,
    getPosition_updateOrderStatus, hpos, getUser_updatePosition,
    getUser_createTrade, getUser_updateOrderStatus, hu]

theorem executeOrder_buy_noPos (st : StoreState) (oid : Nat) (p : ℚ)
    (o : Order) (u : User)
    (h : getOrder st oid = some o) (hp : o.status = "PENDING")
    (hbuy : o.orderType = "BUY")
    (hnopos : getPosition st o.userId o.symbol o.exchange = none)
    (hu : getUser st o.userId = some u) :
    executeOrder st oid p =
      updateUserBalance
        (createPosition
          (createTrade (updateOrderStatus st oid "EXECUTED" (some p)) o.id
            o.symbol o.exchange o.orderType o.quantity (round2 p)
            (round2 ((o.quantity : ℚ) * p)) o.userId).2
          o.symbol o.exchange o.quantity (round2 p) o.userId).2
        o.userId (u.balance - (o.quantity : ℚ) * p) := by
  unfold executeOrder
  simp only [h, hp, hbuy, reduceIte, String.reduceEq, getPosition_createTrade,
    getPosition_updateOrderStatus, hnopos, getUser_createPosition,
    getUser_createTrade, getUser_updateOrderStatus, hu]

theorem executeOrder_sell_pos_close (st : StoreState) (oid : Nat) (p : ℚ)
    (o : Order) (pos : Position) (u : User)
    (h : getOrder st oid = some o) (hp : o.status = "PENDING")
    (hsell : o.orderType = "SELL")
    (hpos : getPosition st o.userId o.symbol o.exchange = some pos)
    (hu : getUser st o.userId = some u)
    (hle : pos.quantity - o.quantity ≤ 0) :
    executeOrder st oid p =
      updateUserBalance
        (deletePosition
          (createTrade (updateOrderStatus st oid "EXECUTED" (some p)) o.id
            o.symbol o.exchange o.orderType o.quantity (round2 p)
            (round2 ((o.quantity : ℚ) * p)) o.userId).2
          pos.id)
        o.userId (u.balance + (o.quantity : ℚ) * p) := by
  unfold executeOrder
  simp only [h, hp, hsell, reduceIte, String.reduceEq, getPosition_createTrade,
    getPosition_updateOrderStatus, hpos]
  rw [if_pos hle]
  simp only [getUser_deletePosition, getUser_createTrade,
    getUser_updateOrderStatus, hu]

theorem executeOrder_sell_pos_keep (st : StoreState) (oid : Nat) (p : ℚ)
    (o : Order) (pos : Position) (u : User)
    (h : getOrder st oid = some o) (hp : o.status = "PENDING")
    (hsell : o.orderType = "SELL")
    (hpos : getPosition st o.userId o.symbol o.exchange = some pos)
    (hu : getUser st o.userId = some u)
    (hgt : ¬ pos.quantity - o.quantity ≤ 0) :
    executeOrder st oid p =
      updateUserBalance
        (updatePosition
          (createTrade (updateOrderStatus st oid "EXECUTED" (some p)) o.id
            o.symbol o.exchange o.orderType o.quantity (round2 p)
            (round2 ((o.quantity : ℚ) * p)) o.userId).2
          pos.id (pos.quantity - o.quantity) pos.averagePrice)
        o.userId (u.balance + (o.quantity : ℚ) * p) := by
  unfold executeOrder
  simp only [h, hp, hsell, reduceIte, String.reduceEq, getPosition_createTrade,
    getPosition_updateOrderStatus, hpos]
  rw [if_neg hgt]
  simp only [getUser_updatePosition, getUser_createTrade,
    getUser_updateOrderStatus, hu]

theorem orders_executeOrder_pending (st : StoreState) (oid : Nat) (p : ℚ)
    (o : Order) (h : getOrder st oid = some o) (hp : o.status = "PENDING") :
    (executeOrder st oid p).orders =
      (updateOrderStatus st oid "EXECUTED" (some p)).orders := by
  unfold executeOrder
  simp only [h, hp, reduceIte]
  repeat' split
  all_goals rfl

theorem trades_executeOrder_pending (st : StoreState) (oid : Nat) (p : ℚ)
    (o : Order) (h : getOrder st oid = some o) (hp : o.status = "PENDING") :
    (executeOrder st oid p).trades = settledTrade st o p :: st.trades := by
  unfold executeOrder
  simp only [h, hp, reduceIte]
  repeat' split
  all_goals rfl

theorem getOrder_executeOrder_pending (st : StoreState) (oid : Nat) (p : ℚ)
    (o : Order) (h : getOrder st oid = some o) (hp : o.status = "PENDING") :
    getOrder (executeOrder st oid p) oid =
      some { o with status := "EXECUTED", executedPrice := some (round2 p),
                    executedAt := some st.now } := by
  have horders := orders_executeOrder_pending st oid p o h hp
  have hstep : getOrder (executeOrder st oid p) oid =
      getOrder (updateOrderStatus st oid "EXECUTED" (some p)) oid := by
    unfold getOrder
    rw [horders]
  rw [hstep, getOrder_updateOrderStatus_price "EXECUTED" p h]


/-! ### Concrete fixtures for witnesses and counterexamples -/

/-- A catalog stock at price 100. -/
def stockTCS : Stock :=
  { id := 2, symbol := "TCS", exchange := "NSE",
    name := "Tata Consultancy Services", currentPrice := 100,
    previousClose := 99, dayHigh := 101, dayLow := 98, dayOpen := 99,
    volume := 1000, lastUpdated := 0 }

/-- The demo user seeded by `MemStorage.initializeDemoData`. -/
def demoUser : User :=
  { id := 1, username := "demo", password := "demo123", balance := 100000 }

/-- An order for the demo user on the catalog stock. -/
def mkOrder (oid : Nat) (ty : String) (q : Int) (lp : ℚ) (status : String) :
    Order :=
  { id := oid, userId := 1, symbol := "TCS", exchange := "NSE",
    orderType := ty, quantity := q, limitPrice := lp, takeProfitType := none,
    takeProfitValue := none, stopLossType := none, stopLossValue := none,
    status := status, executedPrice := none, executedAt := none,
    createdAt := 0 }

/-- A position of the demo user on the catalog stock. -/
def mkPosition (pid : Nat) (q : Int) (avg : ℚ) : Position :=
  { id := pid, userId := 1, symbol := "TCS", exchange := "NSE", quantity := q,
    averagePrice := avg, currentValue := 0, unrealizedPnL := 0,
    createdAt := 0, updatedAt := 0 }

/-- A ledger with the demo user, the catalog stock, the given orders and
positions, and no trades. -/
def mkState (os : List Order) (ps : List Position) : StoreState :=
  { users := [demoUser], stocks := [stockTCS], orders := os, positions := ps,
    trades := [], currentOrderId := 10, currentPositionId := 10,
    currentTradeId := 10, now := 7 }

/-- State with a single PENDING SELL order. -/
def stC1 : StoreState := mkState [mkOrder 1 "SELL" 5 100 "PENDING"] []

/-! ### C1 -/

/-- C1: `executeOrder` is a no-op — not an error — when the order does not
exist or its status is not PENDING; hence settling the same order twice
yields exactly one transition to EXECUTED (the second call leaves the state
unchanged) and exactly one trade whose order id, quantity and side match the
order. -/
theorem settle_idempotent :
    (∀ st oid p, getOrder st oid = none → executeOrder st oid p = st) ∧
    (∀ st oid p o, getOrder st oid = some o → o.status ≠ "PENDING" →
      executeOrder st oid p = st) ∧
    (∀ st oid p p' o, getOrder st oid = some o → o.status = "PENDING" →
      tradesFor st oid = [] →
      executeOrder (executeOrder st oid p) oid p' = executeOrder st oid p ∧
      (getOrder (executeOrder st oid p) oid).map Order.status =
        some "EXECUTED" ∧
      ∃ t, tradesFor (executeOrder st oid p) oid = [t] ∧
        t.orderId = oid ∧ t.quantity = o.quantity ∧
        t.tradeType = o.orderType) := by
  refine ⟨?_, ?_, ?_⟩
  · intro st oid p h
    exact executeOrder_noop st oid p (fun o ho => by rw [h] at ho; cases ho)
  · intro st oid p o h hs
    refine executeOrder_noop st oid p (fun o' ho' => ?_)
    rw [h] at ho'
    injection ho' with h2
    rw [← h2]
    exact hs
  · intro st oid p p' o h hp htr
    have hex := getOrder_executeOrder_pending st oid p o h hp
    have hnoop : executeOrder (executeOrder st oid p) oid p' =
        executeOrder st oid p := by
      refine executeOrder_noop _ oid p' (fun o' ho' => ?_)
      rw [hex] at ho'
      injection ho' with h2
      rw [← h2]
      simp
    refine ⟨hnoop, by rw [hex]; rfl, settledTrade st o p, ?_, getOrder_id h,
      rfl, rfl⟩
    have htr' := trades_executeOrder_pending st oid p o h hp
    unfold tradesFor at htr ⊢
    rw [htr', List.filter_cons,
      if_pos (by simp [settledTrade, getOrder_id h]), htr]

/-- Witness for C1 at a concrete ledger: one PENDING SELL order, no trades. -/
theorem settle_idempotent_witness :
    executeOrder (executeOrder stC1 1 100) 1 100 = executeOrder stC1 1 100 ∧
    (getOrder (executeOrder stC1 1 100) 1).map Order.status =
      some "EXECUTED" ∧
    ∃ t, tradesFor (executeOrder stC1 1 100) 1 = [t] ∧
      t.orderId = 1 ∧ t.quantity = 5 ∧ t.tradeType = "SELL" :=
  settle_idempotent.2.2 stC1 1 100 100 (mkOrder 1 "SELL" 5 100 "PENDING")
    rfl rfl rfl


theorem getOrder_createOrder_self (st : StoreState) (req : InsertOrder)
    (uid : Nat) :
    getOrder (createOrder st req uid).2 (createOrder st req uid).1.id =
      some (createOrder st req uid).1 := by
  show ((createOrder st req uid).1 :: st.orders).find?
      (fun o => o.id == (createOrder st req uid).1.id) = _
  exact List.find?_cons_of_pos _ (by simp)

theorem getUser_balance_after (st : StoreState) (uid : Nat) (b : ℚ)
    (u : User) (h : getUser st uid = some u) :
    (getUser (updateUserBalance st uid b) uid).map User.balance =
      some (round2 b) := by
  rw [getUser_updateUserBalance b h]
  rfl

/-! ### C10 -/

/-- C10: a SELL order settled while the user has no open position for its
(symbol, exchange) is marked EXECUTED and a matching Trade is recorded, but
the users (hence every balance) and the positions are left completely
unchanged. -/
theorem sell_without_position_frame :
    ∀ st oid p o, getOrder st oid = some o → o.status = "PENDING" →
      o.orderType = "SELL" →
      getPosition st o.userId o.symbol o.exchange = none →
      (getOrder (executeOrder st oid p) oid).map Order.status =
        some "EXECUTED" ∧
      (executeOrder st oid p).trades = settledTrade st o p :: st.trades ∧
      (settledTrade st o p).orderId = o.id ∧
      (settledTrade st o p).quantity = o.quantity ∧
      (settledTrade st o p).tradeType = o.orderType ∧
      (executeOrder st oid p).users = st.users ∧
      (executeOrder st oid p).positions = st.positions := by
  intro st oid p o h hp hsell hnopos
  have hb := executeOrder_sell_noPos st oid p o h hp hsell hnopos
  exact ⟨by rw [getOrder_executeOrder_pending st oid p o h hp]; rfl,
    trades_executeOrder_pending st oid p o h hp, rfl, rfl, rfl,
    by rw [hb]; rfl, by rw [hb]; rfl⟩

/-- Witness for C10: the concrete ledger `stC1` (one PENDING SELL order for
5 shares, no positions, no trades) settled at price 100. -/
theorem sell_without_position_frame_witness :
    (getOrder (executeOrder stC1 1 100) 1).map Order.status =
      some "EXECUTED" ∧
    (executeOrder stC1 1 100).trades =
      settledTrade stC1 (mkOrder 1 "SELL" 5 100 "PENDING") 100 ::
        stC1.trades ∧
    (settledTrade stC1 (mkOrder 1 "SELL" 5 100 "PENDING") 100).orderId = 1 ∧
    (settledTrade stC1 (mkOrder 1 "SELL" 5 100 "PENDING") 100).quantity = 5 ∧
    (settledTrade stC1 (mkOrder 1 "SELL" 5 100 "PENDING") 100).tradeType =
      "SELL" ∧
    (executeOrder stC1 1 100).users = stC1.users ∧
    (executeOrder stC1 1 100).positions = stC1.positions :=
  sell_without_position_frame stC1 1 100 (mkOrder 1 "SELL" 5 100 "PENDING")
    rfl rfl rfl rfl

/-! ### C3 -/

/-- C3 counterexample: the claim asserts every settled SELL credits
`quantity × executionPrice` — "including a SELL settled while the user has
no open position".  On `stC1` (demo user balance 100000, PENDING SELL of 5
shares, no position) settling at price 100 executes the order yet leaves the
balance at 100000, not 100000 + 5·100 = 100500: the source only credits
inside the `orderType === "SELL" && existingPosition` branch. -/
theorem settle_balance_counterexample :
    (getOrder (executeOrder stC1 1 100) 1).map Order.status =
      some "EXECUTED" ∧
    (getUser (executeOrder stC1 1 100) 1).map User.balance = some 100000 ∧
    ¬ (getUser (executeOrder stC1 1 100) 1).map User.balance =
        some (100000 + ((5 : Int) : ℚ) * 100) := by
  have hb := executeOrder_sell_noPos stC1 1 100
    (mkOrder 1 "SELL" 5 100 "PENDING") rfl rfl rfl rfl
  refine ⟨?_, ?_, ?_⟩
  · rw [getOrder_executeOrder_pending stC1 1 100
      (mkOrder 1 "SELL" 5 100 "PENDING") rfl rfl]
    rfl
  · rw [hb]; rfl
  · rw [hb]
    intro hc
    have hc2 : (100000 : ℚ) = 100000 + ((5 : Int) : ℚ) * 100 := by
      have := hc
      injection this
    norm_num at hc2

/-- C3 amended: the balance stored after settlement is `toFixed(2)` of the
old balance minus (BUY) or plus (SELL) `quantity × executionPrice` — but the
SELL credit is applied only when an open position exists for the order's
(user, symbol, exchange); a SELL settled without a position leaves the
balance unchanged. -/
theorem settle_balance_change :
    ∀ st oid p o u, getOrder st oid = some o → o.status = "PENDING" →
      getUser st o.userId = some u →
      (o.orderType = "BUY" →
        (getUser (executeOrder st oid p) o.userId).map User.balance =
          some (round2 (u.balance - (o.quantity : ℚ) * p))) ∧
      (o.orderType = "SELL" →
        (∀ pos, getPosition st o.userId o.symbol o.exchange = some pos →
          (getUser (executeOrder st oid p) o.userId).map User.balance =
            some (round2 (u.balance + (o.quantity : ℚ) * p))) ∧
        (getPosition st o.userId o.symbol o.exchange = none →
          (getUser (executeOrder st oid p) o.userId).map User.balance =
            some u.balance)) := by
  intro st oid p o u h hp hu
  constructor
  · intro hbuy
    rcases hpos : getPosition st o.userId o.symbol o.exchange with _ | pos
    · rw [executeOrder_buy_noPos st oid p o u h hp hbuy hpos hu]
      exact getUser_balance_after _ _ _ u hu
    · rw [executeOrder_buy_pos st oid p o pos u h hp hbuy hpos hu]
      exact getUser_balance_after _ _ _ u hu
  · intro hsell
    constructor
    · intro pos hpos
      by_cases hq : pos.quantity - o.quantity ≤ 0
      · rw [executeOrder_sell_pos_close st oid p o pos u h hp hsell hpos hu hq]
        exact getUser_balance_after _ _ _ u hu
      · rw [executeOrder_sell_pos_keep st oid p o pos u h hp hsell hpos hu hq]
        exact getUser_balance_after _ _ _ u hu
    · intro hnopos
      rw [executeOrder_sell_noPos st oid p o h hp hsell hnopos]
      show (getUser st o.userId).map User.balance = some u.balance
      rw [hu]
      rfl

/-- Witness for C3 (amended) at the concrete ledger `stC1`. -/
theorem settle_balance_change_witness :
    (("SELL" : String) = "BUY" →
      (getUser (executeOrder stC1 1 100) 1).map User.balance =
        some (round2 (100000 - ((5 : Int) : ℚ) * 100))) ∧
    (("SELL" : String) = "SELL" →
      (∀ pos, getPosition stC1 1 "TCS" "NSE" = some pos →
        (getUser (executeOrder stC1 1 100) 1).map User.balance =
          some (round2 (100000 + ((5 : Int) : ℚ) * 100))) ∧
      (getPosition stC1 1 "TCS" "NSE" = none →
        (getUser (executeOrder stC1 1 100) 1).map User.balance =
          some 100000)) :=
  settle_balance_change stC1 1 100 (mkOrder 1 "SELL" 5 100 "PENDING")
    demoUser rfl rfl rfl


theorem getPosition_after_update (st : StoreState) (u : Nat)
    (sy ex : String) (pos : Position) (q : Int) (a : ℚ)
    (h : getPosition st u sy ex = some pos) :
    (getPosition (updatePosition st pos.id q a) u sy ex).map
      (fun r => (r.quantity, r.averagePrice)) = some (q, round2 a) := by
  rw [getPosition_updatePosition q a h]
  rfl

theorem getPosition_avg_after_update (st : StoreState) (u : Nat)
    (sy ex : String) (pos : Position) (q : Int) (a : ℚ)
    (h : getPosition st u sy ex = some pos) :
    (getPosition (updatePosition st pos.id q a) u sy ex).map
      Position.averagePrice = some (round2 a) := by
  rw [getPosition_updatePosition q a h]
  rfl

/-! ### C4 -/

/-- State for the C4 counterexample: position of 1 share at average 100,
PENDING BUY of 2 shares. -/
def stC4 : StoreState :=
  mkState [mkOrder 1 "BUY" 2 200 "PENDING"] [mkPosition 3 1 100]

/-- State for the flagship weighted-average example: position of 10 shares
at average 100, PENDING BUY of 10 shares. -/
def stC4b : StoreState :=
  mkState [mkOrder 1 "BUY" 10 200 "PENDING"] [mkPosition 3 10 100]

/-- C4 counterexample: settling a BUY of 2 shares at 100.01 against a
position of 1 share at average 100 stores average 100.01 (the weighted
average 300.02/3 = 100.00666… rounded by `toFixed(2)`), which differs from
the exact weighted average the claim asserts. -/
theorem weighted_average_counterexample :
    (getPosition (executeOrder stC4 1 (10001/100)) 1 "TCS" "NSE").map
        Position.averagePrice = some (10001/100) ∧
    ¬ (getPosition (executeOrder stC4 1 (10001/100)) 1 "TCS" "NSE").map
        Position.averagePrice =
      some ((((1 : Int) : ℚ) * 100 + ((2 : Int) : ℚ) * (10001/100)) /
        (((3 : Int)) : ℚ)) := by
  have hb := executeOrder_buy_pos stC4 1 (10001/100)
    (mkOrder 1 "BUY" 2 200 "PENDING") (mkPosition 3 1 100) demoUser
    rfl rfl rfl rfl rfl
  have hval : (getPosition (executeOrder stC4 1 (10001/100)) 1 "TCS"
      "NSE").map Position.averagePrice = some (10001/100) := by
    rw [hb, getPosition_updateUserBalance]
    refine Eq.trans
      (getPosition_avg_after_update _ 1 "TCS" "NSE" (mkPosition 3 1 100)
        _ _ ?_) ?_
    · rfl
    · norm_num [round2, mkPosition, mkOrder]
  refine ⟨hval, ?_⟩
  rw [hval]
  intro hc
  injection hc with h2
  norm_num at h2

/-- C4 amended: for a BUY settled against an existing position the new
quantity is `old + order quantity` and the stored average price is
`toFixed(2)` of the weighted average
`(oldQty·oldAvg + orderQty·executionPrice) / newQuantity`; in the flagship
case (qty=10, avg=100) + BUY(qty=10, price=120) the rounding is exact and
the result is (20, 110.00). -/
theorem buy_position_weighted_average :
    (∀ st oid p o pos u, getOrder st oid = some o → o.status = "PENDING" →
      o.orderType = "BUY" →
      getPosition st o.userId o.symbol o.exchange = some pos →
      getUser st o.userId = some u →
      (getPosition (executeOrder st oid p) o.userId o.symbol o.exchange).map
          (fun r => (r.quantity, r.averagePrice)) =
        some (pos.quantity + o.quantity,
          round2 (((pos.quantity : ℚ) * pos.averagePrice +
            (o.quantity : ℚ) * p) /
            (((pos.quantity + o.quantity : Int)) : ℚ)))) ∧
    (getPosition (executeOrder stC4b 1 120) 1 "TCS" "NSE").map
        (fun r => (r.quantity, r.averagePrice)) = some (20, 110) := by
  have hgen : ∀ st oid p o pos u, getOrder st oid = some o →
      o.status = "PENDING" → o.orderType = "BUY" →
      getPosition st o.userId o.symbol o.exchange = some pos →
      getUser st o.userId = some u →
      (getPosition (executeOrder st oid p) o.userId o.symbol o.exchange).map
          (fun r => (r.quantity, r.averagePrice)) =
        some (pos.quantity + o.quantity,
          round2 (((pos.quantity : ℚ) * pos.averagePrice +
            (o.quantity : ℚ) * p) /
            (((pos.quantity + o.quantity : Int)) : ℚ))) := by
    intro st oid p o pos u h hp hbuy hpos hu
    rw [executeOrder_buy_pos st oid p o pos u h hp hbuy hpos hu,
      getPosition_updateUserBalance]
    exact getPosition_after_update _ o.userId o.symbol o.exchange pos _ _ hpos
  refine ⟨hgen, ?_⟩
  have hg := hgen stC4b 1 120 (mkOrder 1 "BUY" 10 200 "PENDING")
    (mkPosition 3 10 100) demoUser rfl rfl rfl rfl rfl
  have hg2 : (getPosition (executeOrder stC4b 1 120) 1 "TCS" "NSE").map
      (fun r => (r.quantity, r.averagePrice)) =
      some ((10 : Int) + 10,
        round2 ((((10 : Int) : ℚ) * 100 + ((10 : Int) : ℚ) * 120) /
          (((10 + 10 : Int)) : ℚ))) := hg
  rw [hg2]
  norm_num [round2]

/-- Witness for C4 (amended) at the flagship ledger `stC4b`. -/
theorem buy_position_weighted_average_witness :
    (getPosition (executeOrder stC4b 1 120) 1 "TCS" "NSE").map
        (fun r => (r.quantity, r.averagePrice)) =
      some ((10 : Int) + 10,
        round2 ((((10 : Int) : ℚ) * 100 + ((10 : Int) : ℚ) * 120) /
          (((10 + 10 : Int)) : ℚ))) :=
  buy_position_weighted_average.1 stC4b 1 120
    (mkOrder 1 "BUY" 10 200 "PENDING") (mkPosition 3 10 100) demoUser
    rfl rfl rfl rfl rfl


/-! ### C5 -/

/-- State for the position-closure example: position of 10 shares at average
100, PENDING SELL of 10 shares. -/
def stC5 : StoreState :=
  mkState [mkOrder 1 "SELL" 10 120 "PENDING"] [mkPosition 3 10 100]

/-- C5: a SELL settled against an existing position sets the new quantity to
`old − order quantity`; if that is ≤ 0 the position is deleted (oversell is
silently permitted — the hypothesis places no lower bound on the result),
otherwise the average price is unchanged; and a Trade for
`toFixed(2)` of `quantity × executionPrice` is recorded.  Selling a full
position (qty=10, avg=100) at price 130 deletes the position and records a
Trade of total value 1300.00. -/
theorem sell_position_decrement :
    (∀ st oid p o pos u, getOrder st oid = some o → o.status = "PENDING" →
      o.orderType = "SELL" →
      getPosition st o.userId o.symbol o.exchange = some pos →
      getUser st o.userId = some u →
      (∀ q ∈ st.positions, (q.userId == o.userId && q.symbol == o.symbol &&
        q.exchange == o.exchange) = true → q = pos) →
      round2 pos.averagePrice = pos.averagePrice →
      (pos.quantity - o.quantity ≤ 0 →
        getPosition (executeOrder st oid p) o.userId o.symbol o.exchange =
          none) ∧
      (¬ pos.quantity - o.quantity ≤ 0 →
        (getPosition (executeOrder st oid p) o.userId o.symbol
            o.exchange).map (fun r => (r.quantity, r.averagePrice)) =
          some (pos.quantity - o.quantity, pos.averagePrice)) ∧
      (executeOrder st oid p).trades = settledTrade st o p :: st.trades ∧
      (settledTrade st o p).totalValue = round2 ((o.quantity : ℚ) * p)) ∧
    (getPosition (executeOrder stC5 1 130) 1 "TCS" "NSE" = none ∧
      (executeOrder stC5 1 130).trades.map Trade.totalValue = [1300]) := by
  have hgen : ∀ st oid p o pos u, getOrder st oid = some o →
      o.status = "PENDING" → o.orderType = "SELL" →
      getPosition st o.userId o.symbol o.exchange = some pos →
      getUser st o.userId = some u →
      (∀ q ∈ st.positions, (q.userId == o.userId && q.symbol == o.symbol &&
        q.exchange == o.exchange) = true → q = pos) →
      round2 pos.averagePrice = pos.averagePrice →
      (pos.quantity - o.quantity ≤ 0 →
        getPosition (executeOrder st oid p) o.userId o.symbol o.exchange =
          none) ∧
      (¬ pos.quantity - o.quantity ≤ 0 →
        (getPosition (executeOrder st oid p) o.userId o.symbol
            o.exchange).map (fun r => (r.quantity, r.averagePrice)) =
          some (pos.quantity - o.quantity, pos.averagePrice)) ∧
      (executeOrder st oid p).trades = settledTrade st o p :: st.trades ∧
      (settledTrade st o p).totalValue = round2 ((o.quantity : ℚ) * p) := by
    intro st oid p o pos u h hp hsell hpos hu huniq havg
    refine ⟨?_, ?_, trades_executeOrder_pending st oid p o h hp, rfl⟩
    · intro hle
      rw [executeOrder_sell_pos_close st oid p o pos u h hp hsell hpos hu hle,
        getPosition_updateUserBalance]
      exact getPosition_deletePosition hpos huniq
    · intro hgt
      rw [executeOrder_sell_pos_keep st oid p o pos u h hp hsell hpos hu hgt,
        getPosition_updateUserBalance]
      refine Eq.trans
        (getPosition_after_update _ o.userId o.symbol o.exchange pos _ _
          hpos) ?_
      rw [havg]
  refine ⟨hgen, ?_, ?_⟩
  · have hg := hgen stC5 1 130 (mkOrder 1 "SELL" 10 120 "PENDING")
      (mkPosition 3 10 100) demoUser rfl rfl rfl rfl rfl
      (fun q hq _ => by simpa [stC5, mkState] using hq)
      (by norm_num [round2, mkPosition])
    exact hg.1 (by decide)
  · have hg := hgen stC5 1 130 (mkOrder 1 "SELL" 10 120 "PENDING")
      (mkPosition 3 10 100) demoUser rfl rfl rfl rfl rfl
      (fun q hq _ => by simpa [stC5, mkState] using hq)
      (by norm_num [round2, mkPosition])
    rw [hg.2.2.1]
    norm_num [settledTrade, round2, stC5, mkState, mkOrder]

/-- Witness for C5 at the position-closure ledger `stC5`. -/
theorem sell_position_decrement_witness :
    ((10 : Int) - 10 ≤ 0 →
      getPosition (executeOrder stC5 1 130) 1 "TCS" "NSE" = none) ∧
    (¬ (10 : Int) - 10 ≤ 0 →
      (getPosition (executeOrder stC5 1 130) 1 "TCS" "NSE").map
        (fun r => (r.quantity, r.averagePrice)) =
        some ((10 : Int) - 10, (100 : ℚ))) ∧
    (executeOrder stC5 1 130).trades =
      settledTrade stC5 (mkOrder 1 "SELL" 10 120 "PENDING") 130 ::
        stC5.trades ∧
    (settledTrade stC5 (mkOrder 1 "SELL" 10 120 "PENDING") 130).totalValue =
      round2 (((10 : Int) : ℚ) * 130) :=
  sell_position_decrement.1 stC5 1 130 (mkOrder 1 "SELL" 10 120 "PENDING")
    (mkPosition 3 10 100) demoUser rfl rfl rfl rfl rfl
    (fun q hq _ => by simpa [stC5, mkState] using hq)
    (by norm_num [round2, mkPosition])


/-! ### C6 -/

/-- State with a single order already EXECUTED. -/
def stC6 : StoreState := mkState [mkOrder 1 "BUY" 5 100 "EXECUTED"] []

/-- C6 counterexample: the claim says cancelOrder is a no-op unless the
order is PENDING and that EXECUTED is terminal; but `cancelOrder` in the
source sets status to CANCELLED for any existing order with no status
check: cancelling the EXECUTED order of `stC6` re-labels it CANCELLED. -/
theorem cancel_terminal_counterexample :
    (getOrder stC6 1).map Order.status = some "EXECUTED" ∧
    (getOrder (cancelOrder stC6 1) 1).map Order.status = some "CANCELLED" ∧
    ¬ cancelOrder stC6 1 = stC6 := by
  refine ⟨rfl, rfl, ?_⟩
  intro hc
  have h2 := congrArg (fun s => (getOrder s 1).map Order.status) hc
  simp only [] at h2
  have h3 : some ("CANCELLED" : String) = some "EXECUTED" := h2
  injection h3 with h4
  exact absurd h4 (by decide)

/-- C6 amended: `cancelOrder` sets the status to CANCELLED whenever the
order exists — regardless of its current status, so an EXECUTED order can
still be re-labelled CANCELLED — and is a no-op only when the order does not
exist; `executeOrder` (settle) never changes an order that is not PENDING,
and an order can never be settled twice. -/
theorem cancel_unconditional :
    (∀ st oid o, getOrder st oid = some o →
      (getOrder (cancelOrder st oid) oid).map Order.status =
        some "CANCELLED") ∧
    (∀ st oid, getOrder st oid = none → cancelOrder st oid = st) ∧
    (∀ st oid p o, getOrder st oid = some o → o.status ≠ "PENDING" →
      executeOrder st oid p = st) := by
  refine ⟨?_, ?_, ?_⟩
  · intro st oid o h
    rw [getOrder_cancelOrder h]
    rfl
  · intro st oid h
    exact cancelOrder_of_none h
  · intro st oid p o h hs
    refine executeOrder_noop st oid p (fun o' ho' => ?_)
    rw [h] at ho'
    injection ho' with h2
    rw [← h2]
    exact hs

/-- Witness for C6 (amended) at the ledger `stC6`: cancelling the EXECUTED
order marks it CANCELLED, and settling it changes nothing. -/
theorem cancel_unconditional_witness :
    (getOrder (cancelOrder stC6 1) 1).map Order.status = some "CANCELLED" ∧
    executeOrder stC6 1 100 = stC6 :=
  ⟨cancel_unconditional.1 stC6 1 (mkOrder 1 "BUY" 5 100 "EXECUTED") rfl,
   cancel_unconditional.2.2 stC6 1 100 (mkOrder 1 "BUY" 5 100 "EXECUTED")
     rfl (by decide)⟩

/-! ### C7 -/

/-- C7: the execution condition is a pure predicate of side, limit price and
current price — BUY executes iff `currentPrice ≤ limitPrice`, SELL iff
`currentPrice ≥ limitPrice`, with an inclusive boundary (BUY limit 100.00
executes at 100.00, not at 100.01) — and the sweep (lines 434-439) computes
exactly the same predicate as the creation-time check (lines 170-175). -/
theorem execution_condition :
    (∀ (t : String) (c l : ℚ), shouldExecuteSweep t c l =
      shouldExecuteCreate t c l) ∧
    (∀ c l : ℚ, shouldExecuteCreate "BUY" c l = true ↔ c ≤ l) ∧
    (∀ c l : ℚ, shouldExecuteCreate "SELL" c l = true ↔ c ≥ l) ∧
    shouldExecuteCreate "BUY" 100 100 = true ∧
    shouldExecuteCreate "BUY" (10001/100) 100 = false := by
  refine ⟨fun t c l => rfl, ?_, ?_, ?_, ?_⟩
  · intro c l
    by_cases hc : c ≤ l <;> simp [shouldExecuteCreate, hc]
  · intro c l
    by_cases hc : c ≥ l <;> simp [shouldExecuteCreate, hc]
  · norm_num [shouldExecuteCreate]
  · norm_num [shouldExecuteCreate]
    decide


/-! ### C8 and C9 -/

/-- An empty ledger apart from the demo user and the catalog stock. -/
def stEmpty : StoreState := mkState [] []

/-- A request that passes the shape-only zod validation although its
quantity and limit price are negative. -/
def badReq : InsertOrder :=
  { symbol := "TCS", exchange := "NSE", orderType := "BUY", quantity := -5,
    limitPrice := -10, takeProfitType := none, takeProfitValue := none,
    stopLossType := none, stopLossValue := none }

/-- A well-formed BUY request below the current price. -/
def goodReq : InsertOrder :=
  { symbol := "TCS", exchange := "NSE", orderType := "BUY", quantity := 5,
    limitPrice := 90, takeProfitType := none, takeProfitValue := none,
    stopLossType := none, stopLossValue := none }

/-- A request for an instrument missing from the catalog. -/
def unknownReq : InsertOrder :=
  { symbol := "ZZZ", exchange := "NSE", orderType := "BUY", quantity := 5,
    limitPrice := 90, takeProfitType := none, takeProfitValue := none,
    stopLossType := none, stopLossValue := none }

/-- C9: order creation fails (HTTP 400, modelled `none`) and persists
nothing when the (symbol, exchange) is not in the stock catalog; otherwise
it persists and returns a new order in status PENDING with executed price
and time unset. -/
theorem create_order_catalog :
    (∀ st req, getStock st req.symbol req.exchange = none →
      placeOrder st req = (none, st)) ∧
    (∀ st req stock, getStock st req.symbol req.exchange = some stock →
      ∃ o st', placeOrder st req = (some o, st') ∧ o.status = "PENDING" ∧
        o.executedPrice = none ∧ o.executedAt = none ∧
        (getOrder st' o.id).isSome = true) := by
  constructor
  · intro st req h
    simp only [placeOrder, insertOrderSchemaCheck, reduceIte, h]
  · intro st req stock h
    by_cases hx : shouldExecuteCreate req.orderType stock.currentPrice
        req.limitPrice = true
    · refine ⟨(createOrder st req 1).1,
        executeOrder (createOrder st req 1).2 (createOrder st req 1).1.id
          stock.currentPrice, ?_, rfl, rfl, rfl, ?_⟩
      · simp only [placeOrder, insertOrderSchemaCheck, reduceIte, h]
        rw [if_pos hx]
      · rw [getOrder_executeOrder_pending _ _ _ _
          (getOrder_createOrder_self st req 1) rfl]
        rfl
    · refine ⟨(createOrder st req 1).1, (createOrder st req 1).2, ?_, rfl,
        rfl, rfl, ?_⟩
      · simp only [placeOrder, insertOrderSchemaCheck, reduceIte, h]
        rw [if_neg hx]
      · rw [getOrder_createOrder_self st req 1]
        rfl

/-- Witness for C9: the unknown instrument "ZZZ" is rejected with nothing
persisted; the catalog request is persisted PENDING. -/
theorem create_order_catalog_witness :
    placeOrder stEmpty unknownReq = (none, stEmpty) ∧
    ∃ o st', placeOrder stEmpty goodReq = (some o, st') ∧
      o.status = "PENDING" ∧ o.executedPrice = none ∧ o.executedAt = none ∧
      (getOrder st' o.id).isSome = true :=
  ⟨create_order_catalog.1 stEmpty unknownReq rfl,
   create_order_catalog.2 stEmpty goodReq stockTCS rfl⟩

/-- C8 counterexample: the claim says a request with non-positive quantity
or limit price is rejected at creation and nothing is persisted; but
`insertOrderSchema` (shape-only) accepts `badReq` (quantity −5, limit price
−10) and the route persists it as a PENDING order. -/
theorem invalid_order_accepted_counterexample :
    badReq.quantity ≤ 0 ∧ badReq.limitPrice ≤ 0 ∧
    (placeOrder stEmpty badReq).1.isSome = true ∧
    (getOrder (placeOrder stEmpty badReq).2 10).map Order.quantity =
      some (-5) ∧
    (getOrder (placeOrder stEmpty badReq).2 10).map Order.status =
      some "PENDING" := by
  have hst : getStock stEmpty badReq.symbol badReq.exchange =
      some stockTCS := rfl
  have hsx : shouldExecuteCreate badReq.orderType stockTCS.currentPrice
      badReq.limitPrice = false := by
    norm_num [shouldExecuteCreate, badReq, stockTCS]
    decide
  refine ⟨by decide, by norm_num [badReq], ?_, ?_, ?_⟩ <;>
    · simp only [placeOrder, insertOrderSchemaCheck, reduceIte, hst, hsx]
      rfl

/-- C8 amended: order creation performs no positivity validation: a
well-typed request whose quantity or limit price is non-positive is still
accepted whenever the instrument exists — a PENDING order with exactly that
quantity and limit price is persisted and returned. -/
theorem no_positivity_validation :
    ∀ st req stock, getStock st req.symbol req.exchange = some stock →
      req.quantity ≤ 0 ∨ req.limitPrice ≤ 0 →
      ∃ o st', placeOrder st req = (some o, st') ∧
        o.quantity = req.quantity ∧ o.limitPrice = req.limitPrice ∧
        o.status = "PENDING" ∧ (getOrder st' o.id).isSome = true := by
  intro st req stock h _hneg
  by_cases hx : shouldExecuteCreate req.orderType stock.currentPrice
      req.limitPrice = true
  · refine ⟨(createOrder st req 1).1,
      executeOrder (createOrder st req 1).2 (createOrder st req 1).1.id
        stock.currentPrice, ?_, rfl, rfl, rfl, ?_⟩
    · simp only [placeOrder, insertOrderSchemaCheck, reduceIte, h]
      rw [if_pos hx]
    · rw [getOrder_executeOrder_pending _ _ _ _
        (getOrder_createOrder_self st req 1) rfl]
      rfl
  · refine ⟨(createOrder st req 1).1, (createOrder st req 1).2, ?_, rfl,
      rfl, rfl, ?_⟩
    · simp only [placeOrder, insertOrderSchemaCheck, reduceIte, h]
      rw [if_neg hx]
    · rw [getOrder_createOrder_self st req 1]
      rfl

/-- Witness for C8 (amended) at the concrete bad request. -/
theorem no_positivity_validation_witness :
    ∃ o st', placeOrder stEmpty badReq = (some o, st') ∧
      o.quantity = badReq.quantity ∧ o.limitPrice = badReq.limitPrice ∧
      o.status = "PENDING" ∧ (getOrder st' o.id).isSome = true :=
  no_positivity_validation stEmpty badReq stockTCS rfl
    (Or.inl (by decide))


/-! ### C2 -/

/-- `executeOrder` with a store-write fault injected.  The store writes are
numbered in execution order — 1 `updateOrderStatus`, 2 `createTrade`,
3 the position write (`updatePosition`/`createPosition`/`deletePosition`),
4 `updateUserBalance` — and `failAt = k` models the k-th write throwing.
The surrounding `try/catch` in the source (routes, lines 192 and 259-261)
swallows the error and merely logs it, so the state reached before the
failing write is kept and the remaining writes are skipped; `failAt = 0`
models a run with no failure. -/
def executeOrderF (st : StoreState) (orderId : Nat) (executionPrice : ℚ)
    (failAt : Nat) : StoreState :=
  match getOrder st orderId with
  | none => st
  | some order =>
    if order.status = "PENDING" then
      if failAt = 1 then st else
      let st1 := updateOrderStatus st orderId "EXECUTED" (some executionPrice)
      if failAt = 2 then st1 else
      let totalValue : ℚ := (order.quantity : ℚ) * executionPrice
      let st2 := (createTrade st1 order.id order.symbol order.exchange
        order.orderType order.quantity (round2 executionPrice)
        (round2 totalValue) order.userId).2
      let existingPosition :=
        getPosition st2 order.userId order.symbol order.exchange
      if order.orderType = "BUY" then
        if failAt = 3 then st2 else
        let st3 :=
          match existingPosition with
          | some pos =>
            let newQuantity := pos.quantity + order.quantity
            let newAveragePrice :=
              ((pos.quantity : ℚ) * pos.averagePrice +
                (order.quantity : ℚ) * executionPrice) / (newQuantity : ℚ)
            updatePosition st2 pos.id newQuantity newAveragePrice
          | none =>
            (createPosition st2 order.symbol order.exchange order.quantity
              (round2 executionPrice) order.userId).2
        match getUser st3 order.userId with
        | some user =>
          if failAt = 4 then st3 else
          updateUserBalance st3 order.userId (user.balance - totalValue)
        | none => st3
      else if order.orderType = "SELL" then
        match existingPosition with
        | some pos =>
          if failAt = 3 then st2 else
          let newQuantity := pos.quantity - order.quantity
          let st3 :=
            if newQuantity ≤ 0 then deletePosition st2 pos.id
            else updatePosition st2 pos.id newQuantity pos.averagePrice
          match getUser st3 order.userId with
          | some user =>
            if failAt = 4 then st3 else
            updateUserBalance st3 order.userId (user.balance + totalValue)
          | none => st3
        | none => st2
      else st2
    else st

/-- C2 counterexample: the claim says any store failure inside settle rolls
the whole settlement back, leaving the order PENDING with no partial state
visible.  On `stC1`, a failure of the trade-creation write (`failAt = 2`)
leaves the order EXECUTED — not PENDING — with no trade recorded: a partial
settlement is visible and the order will never be retried. -/
theorem settle_rollback_counterexample :
    (getOrder (executeOrderF stC1 1 100 2) 1).map Order.status =
      some "EXECUTED" ∧
    ¬ (getOrder (executeOrderF stC1 1 100 2) 1).map Order.status =
        some "PENDING" ∧
    (executeOrderF stC1 1 100 2).trades = [] ∧
    ¬ executeOrderF stC1 1 100 2 = stC1 := by
  refine ⟨rfl, ?_, rfl, ?_⟩
  · intro hc
    have h3 : some ("EXECUTED" : String) = some "PENDING" := hc
    injection h3 with h4
    exact absurd h4 (by decide)
  · intro hc
    have h2 := congrArg (fun s => (getOrder s 1).map Order.status) hc
    have h3 : some ("EXECUTED" : String) = some "PENDING" := h2
    injection h3 with h4
    exact absurd h4 (by decide)

/-- C2 amended: store failures during settle are caught and logged, not
rolled back: the steps already applied stay visible and the remaining steps
are skipped.  A failure before the first write (`failAt = 1`) leaves the
state unchanged; a failure of the trade-creation write (`failAt = 2`) leaves
the order EXECUTED (so it is not retried) with trades, positions and
balances untouched; and with no failure (`failAt = 0`) the routine is
exactly `executeOrder`. -/
theorem settle_no_rollback :
    ∀ st oid p o, getOrder st oid = some o → o.status = "PENDING" →
      executeOrderF st oid p 1 = st ∧
      (getOrder (executeOrderF st oid p 2) oid).map Order.status =
        some "EXECUTED" ∧
      (executeOrderF st oid p 2).trades = st.trades ∧
      (executeOrderF st oid p 2).positions = st.positions ∧
      (executeOrderF st oid p 2).users = st.users ∧
      executeOrderF st oid p 0 = executeOrder st oid p := by
  intro st oid p o h hp
  have e01 : ((0 : Nat) = 1) = False := by simp
  have e02 : ((0 : Nat) = 2) = False := by simp
  have e03 : ((0 : Nat) = 3) = False := by simp
  have e04 : ((0 : Nat) = 4) = False := by simp
  have e21 : ((2 : Nat) = 1) = False := by simp
  have e22 : ((2 : Nat) = 2) = True := by simp
  have h1 : executeOrderF st oid p 1 = st := by
    unfold executeOrderF
    simp only [h, hp, reduceIte]
  have h2 : executeOrderF st oid p 2 =
      updateOrderStatus st oid "EXECUTED" (some p) := by
    unfold executeOrderF
    simp only [h, hp, reduceIte, e21, e22, ite_true, ite_false]
  have h0 : executeOrderF st oid p 0 = executeOrder st oid p := by
    unfold executeOrderF executeOrder
    simp only [h, hp, reduceIte, e01, e02, e03, e04, ite_false]
  refine ⟨h1, ?_, ?_, ?_, ?_, h0⟩
  · rw [h2, getOrder_updateOrderStatus_price "EXECUTED" p h]
    rfl
  · rw [h2]
    rfl
  · rw [h2]
    rfl
  · rw [h2]
    rfl

/-- Witness for C2 (amended) at the concrete ledger `stC1`. -/
theorem settle_no_rollback_witness :
    executeOrderF stC1 1 100 1 = stC1 ∧
    (getOrder (executeOrderF stC1 1 100 2) 1).map Order.status =
      some "EXECUTED" ∧
    (executeOrderF stC1 1 100 2).trades = stC1.trades ∧
    (executeOrderF stC1 1 100 2).positions = stC1.positions ∧
    (executeOrderF stC1 1 100 2).users = stC1.users ∧
    executeOrderF stC1 1 100 0 = executeOrder stC1 1 100 :=
  settle_no_rollback stC1 1 100 (mkOrder 1 "SELL" 5 100 "PENDING") rfl rfl

end PTV2
